import Mathlib

/-!
Verification of the itinerary-construction core of the Daejeon Smart Date Planner.

The definitions below are a shallow embedding of the TypeScript sources
`src/utils/courseGenerator.ts`, `src/utils/UserPreferenceModel.ts` and
`src/utils/haversine.ts` (the vector-model implementation, which the spec
adopts as canonical).  Conventions of the embedding:

* JS `number` is modelled as `ℚ`; `Date` values are modelled as rational
  minutes since the midnight of an arbitrary day 0 (`Date.getTime()` is an
  affine bijection with that).  `date.getHours()*60 + date.getMinutes()`
  becomes `minutesSinceMidnight`, and `setHours(⌊m/60⌋, m % 60, 0, 0)`
  becomes `setTimeOfDay`.
* `x || d` on numbers (JS truthiness: `0` is falsy) becomes `jsOr`;
  optional fields / nullable values become `Option`.
* The two transcendental oracles of the source — the haversine great-circle
  distance (`Math.sin`/`Math.cos`/`Math.atan2`) and the composite desirability
  score `calculatePlaceScore` (`Math.exp`, `Math.sqrt` via cosine similarity)
  — are not exactly computable, so the builder is parameterised over them:
  `dist : Place → Place → ℚ` stands for `haversineDistance` and
  `score : Place → ScoreContext → S` (any linearly ordered `S`) stands for
  `calculatePlaceScore`.  Every theorem about the builder quantifies over
  both oracles, so it holds in particular for the actual instantiations.
  The two score-independent scoring components that claims talk about,
  `calculateDiversityPenalty` (rational) and `cosineSimilarity` (real), are
  embedded directly.
* `userPreferences` is modelled in its already-converted `UserVector` form
  (`convertToUserVector` is total, and no claim depends on the legacy
  tag-weight branch).
-/

/-! ### Data model (`src/types.ts`) -/

inductive PlaceType
  | landmark | cafe | restaurant | shopping | activity | bakery | bar | culture
  deriving DecidableEq, Repr

inductive MealType
  | lunch | dinner | cafe
  deriving DecidableEq, Repr

inductive Companion
  | partner | friend | family | solo
  deriving DecidableEq, Repr

inductive Transport
  | car | foot
  deriving DecidableEq, Repr

inductive Intensity
  | relaxed | packed
  deriving DecidableEq, Repr

/-- A venue.  `themes` is kept abstract as strings (the `Theme` enum is not
used by any core function), `mealType` folds the TS `null`/`undefined` cases
into `none`, and `estimatedDuration` is in minutes. -/
structure Place where
  id : String
  name : String
  nameKo : String
  type : PlaceType
  lat : ℚ
  lng : ℚ
  isIndoor : Bool
  description : String
  themes : List String
  mealType : Option MealType
  estimatedDuration : Option ℚ
  deriving DecidableEq, Repr

/-! ### Preference vector model (`src/utils/UserPreferenceModel.ts`) -/

/-- The ten fixed vector dimensions (`VECTOR_DIMENSIONS`). -/
inductive Dim
  | Meat | Seafood | Noodle | Rice | Bread | Quiet | Active | Indoor | Nature | Luxury
  deriving DecidableEq, Repr, Fintype

/-- `UserVector` / feature vectors: a value for each of the ten dimensions. -/
def UserVector : Type := Dim → ℚ

/-- `INITIAL_USER_VECTOR`: every dimension starts neutral at 0.5. -/
def INITIAL_USER_VECTOR : UserVector := fun _ => 1/2

/-- JS `String.prototype.includes`. -/
def strIncludes (s pat : String) : Bool := decide (pat.data <:+: s.data)

/-- `parseFloat(x.toFixed(3))`: round to the nearest multiple of 1/1000
(JS rounds half away from zero on the printed decimal; the claims below are
robust to the 1/2000 slack either way). -/
def round3 (q : ℚ) : ℚ := (round (q * 1000) : ℤ) / 1000

/-- JS `Math.min` on two numbers (kernel-reducible; equals `min` on ℚ, see
`jsMin_eq_min`). -/
def jsMin (a b : ℚ) : ℚ := if a ≤ b then a else b

/-- JS `Math.max` on two numbers (kernel-reducible; equals `max` on ℚ, see
`jsMax_eq_max`). -/
def jsMax (a b : ℚ) : ℚ := if a ≤ b then b else a


/-- `placeToFeatureVector`: derive a venue's feature vector from its
category, indoor flag and lower-cased name+description text.  The source
initialises all dimensions at 0.5 and then conditionally overwrites them;
the `Nature` dimension is first set to 1.0 for outdoor venues and then
overwritten to 0.8 when park/garden/nature keywords (or the landmark
category) are detected. -/
def placeToFeatureVector (place : Place) : UserVector :=
  let nameLower := place.name.toLower
  let descriptionLower := place.description.toLower
  let combinedText := nameLower ++ " " ++ descriptionLower
  fun dim =>
    match dim with
    | .Meat =>
        if strIncludes combinedText "steak" || strIncludes combinedText "meat" ||
           strIncludes combinedText "bbq" || strIncludes combinedText "grill" then 1 else 1/2
    | .Seafood =>
        if strIncludes combinedText "seafood" || strIncludes combinedText "fish" ||
           strIncludes combinedText "sushi" || strIncludes combinedText "sashimi" then 1 else 1/2
    | .Noodle =>
        if strIncludes combinedText "noodle" || strIncludes combinedText "ramen" ||
           strIncludes combinedText "udon" || strIncludes combinedText "soba" then 1 else 1/2
    | .Rice =>
        if strIncludes combinedText "rice" || strIncludes combinedText "bibimbap" ||
           strIncludes combinedText "gukbap" then 1 else 1/2
    | .Bread =>
        if place.type = .bakery || strIncludes combinedText "bread" ||
           strIncludes combinedText "bakery" || strIncludes combinedText "pastry" then 1 else 1/2
    | .Quiet =>
        if strIncludes combinedText "quiet" || strIncludes combinedText "peaceful" ||
           strIncludes combinedText "serene" || place.type = .culture then 1 else 1/2
    | .Active =>
        if strIncludes combinedText "active" || strIncludes combinedText "sport" ||
           strIncludes combinedText "adventure" || place.type = .activity then 1 else 1/2
    | .Indoor => if place.isIndoor then 1 else 1/2
    | .Nature =>
        if strIncludes combinedText "park" || strIncludes combinedText "garden" ||
           strIncludes combinedText "nature" || place.type = .landmark then 4/5
        else if place.isIndoor then 1/2 else 1
    | .Luxury =>
        if strIncludes combinedText "luxury" || strIncludes combinedText "premium" ||
           strIncludes combinedText "fine dining" || strIncludes combinedText "gourmet" then 1
        else if strIncludes combinedText "steak" || strIncludes combinedText "lounge" ||
           strIncludes combinedText "dining" then 4/5
        else 1/2

inductive FeedbackAction
  | LIKE | DISLIKE
  deriving DecidableEq, Repr

/-- `updateUserVector`: apply a LIKE (+0.10) / DISLIKE (−0.20) delta to every
dimension where the venue's feature vector is positive, rounding to three
decimals and clamping into [0, 1]. -/
def updateUserVector (place : Place) (action : FeedbackAction) (current : UserVector) :
    UserVector :=
  let placeVector := placeToFeatureVector place
  let delta : ℚ := if action = .LIKE then 1/10 else -(1/5)
  fun dim =>
    if placeVector dim > 0 then
      jsMax 0 (jsMin 1 (round3 (current dim + delta)))
    else current dim

/-! ### Scoring components (`src/utils/courseGenerator.ts`) -/

/-- `cosineSimilarity`: dot product over the ten dimensions divided by the
product of the Euclidean magnitudes; 0 when the denominator is 0.  Real
valued because of the square roots. -/
noncomputable def cosineSimilarity (vecA vecB : Dim → ℝ) : ℝ :=
  let dotProduct := ∑ dim : Dim, vecA dim * vecB dim
  let normA := ∑ dim : Dim, vecA dim * vecA dim
  let normB := ∑ dim : Dim, vecB dim * vecB dim
  let denominator := Real.sqrt normA * Real.sqrt normB
  if denominator = 0 then 0 else dotProduct / denominator

/-- `calculateDiversityPenalty`: diminishing-returns multiplier
0.6^(number of already-selected venues of the same category). -/
def calculateDiversityPenalty (place : Place) (selectedPlaces : List Place) : ℚ :=
  if selectedPlaces = [] then 1
  else
    let typeCount := (selectedPlaces.filter (fun p => p.type = place.type)).length
    (3/5) ^ typeCount

/-- The context handed to the composite scoring function (`ScoreContext`).
The builder only constructs these values; the score itself is an oracle
parameter of the embedding. -/
structure ScoreContext where
  userVector : UserVector
  isRainy : Bool
  temperature : ℚ
  distanceKm : Option ℚ
  selectedPlaces : List Place
  companion : Option Companion
  transport : Option Transport

/-! ### Time and travel utilities -/

/-- `date.getHours() * 60 + date.getMinutes()` for a time measured in
rational minutes: the integer minute-of-day in [0, 1440). -/
def minutesSinceMidnight (t : ℚ) : ℚ := ((Int.floor t).emod 1440 : ℤ)

/-- `d.setHours(Math.floor(m / 60), m % 60, 0, 0)`: keep the day of `t`,
set the time of day to `m` minutes (seconds and milliseconds zeroed; at
every call site `m ≥ 0`, where this equals flooring `m`). -/
def setTimeOfDay (t m : ℚ) : ℚ :=
  ((1440 * ((Int.floor t).fdiv 1440) : ℤ) : ℚ) + ((Int.floor m : ℤ) : ℚ)

/-- JS `x || d` for an optional number: `0` (and absence) falls back to `d`. -/
def jsOr (x : Option ℚ) (d : ℚ) : ℚ :=
  match x with
  | none => d
  | some v => if v = 0 then d else v

/-- `travelMinutes`: foot = 12 min/km capped at 90; car = 3 min/km capped at
60, plus a fixed 10-minute parking overhead. -/
def travelMinutes (distanceKm : ℚ) (transport : Transport) : ℚ :=
  match transport with
  | .car => jsMin 60 (distanceKm * 3) + 10
  | .foot => jsMin 90 (distanceKm * 12)

structure MealWindow where
  startMinutes : ℚ
  endMinutes : ℚ
  deriving DecidableEq, Repr

structure MealWindows where
  lunch : Option MealWindow
  dinner : Option MealWindow
  deriving DecidableEq, Repr

def DEFAULT_LUNCH_WINDOW : MealWindow := ⟨11 * 60 + 30, 13 * 60 + 30⟩

def DEFAULT_DINNER_WINDOW : MealWindow := ⟨17 * 60, 19 * 60 + 30⟩

/-! ### Step definitions and the per-step candidate filter -/

structure StepDefinition where
  label : String
  preferredTypes : List PlaceType
  fallbackTypes : Option (List PlaceType)
  mealType : Option MealType
  window : Option MealWindow

/-- `validateWindow`: `none` when arrival is after the window's end;
otherwise the step's effective start (arrival postponed to the window
start when early). -/
def validateWindow (step : StepDefinition) (arriveAt : ℚ) : Option ℚ :=
  match step.window with
  | none => some arriveAt
  | some w =>
    let arriveMinutes := minutesSinceMidnight arriveAt
    if arriveMinutes > w.endMinutes then none
    else some (setTimeOfDay arriveAt (jsMax arriveMinutes w.startMinutes))

/-- `isValidForStep`: lunch/dinner steps accept only restaurants; cafe steps
accept only cafes and bakeries. -/
def isValidForStep (place : Place) (step : StepDefinition) : Bool :=
  if (step.mealType = some .lunch ∨ step.mealType = some .dinner) ∧
      place.type ≠ .restaurant then false
  else if step.mealType = some .cafe ∧ place.type ≠ .cafe ∧ place.type ≠ .bakery then false
  else true

/-- The candidate record built by `pickCandidate` (without the transient
score, which only drives the comparison). -/
structure PickedCandidate where
  place : Place
  distanceKm : ℚ
  startAt : ℚ
  endAt : ℚ
  deriving DecidableEq, Repr

/-- The context record taken by `pickCandidate`.  `lockedSteps` (a
`Record<number, Place>`) is modelled as a partial map from sequence
indices. -/
structure PickCandidateContext where
  visited : List String
  userVector : UserVector
  isRainy : Bool
  temperature : ℚ
  currentTime : ℚ
  currentPlace : Place
  lockedSteps : Option (Nat → Option Place)
  transport : Option Transport
  companion : Option Companion
  selectedPlaces : Option (List Place)

/-- The scored best-candidate search of `pickCandidate` (its main loop after
the locked-step branch falls through). -/
def pickCandidateSearch {S : Type} [LinearOrder S] (dist : Place → Place → ℚ)
    (score : Place → ScoreContext → S) (allPlaces : List Place)
    (step : StepDefinition) (context : PickCandidateContext) : Option PickedCandidate :=
  let candidates := allPlaces.filter fun p =>
    decide (p.id ∉ context.visited ∧
      (p.type ∈ step.preferredTypes ∨ p.type ∈ step.fallbackTypes.getD []) ∧
      isValidForStep p step = true ∧
      (step.mealType = none ∨ p.mealType = none ∨ p.mealType = step.mealType))
  if candidates = [] then none
  else
    let best := candidates.foldl
      (fun best place =>
        let distanceKm := dist context.currentPlace place
        if context.transport = some Transport.foot ∧ distanceKm > 3/2 then best
        else
          let arriveAt := context.currentTime +
            travelMinutes distanceKm (context.transport.getD .foot)
          match validateWindow step arriveAt with
          | none => best
          | some startAt =>
            let endAt := startAt + jsOr place.estimatedDuration 60
            let s := score place
              ⟨context.userVector, context.isRainy, context.temperature, some distanceKm,
               context.selectedPlaces.getD [], context.companion, context.transport⟩
            match best with
            | none => some (PickedCandidate.mk place distanceKm startAt endAt, s)
            | some b =>
              if s > b.2 then some (PickedCandidate.mk place distanceKm startAt endAt, s)
              else best)
      (none : Option (PickedCandidate × S))
    best.map Prod.fst

/-- `pickCandidate`: honour a locked step when it names an unvisited venue
valid for the step whose meal window accepts its arrival time; otherwise run
the scored candidate search.  (`stepIndex + 1` because the sequence includes
the start venue at index 0.) -/
def pickCandidate {S : Type} [LinearOrder S] (dist : Place → Place → ℚ)
    (score : Place → ScoreContext → S) (allPlaces : List Place) (stepIndex : Nat)
    (step : StepDefinition) (context : PickCandidateContext) : Option PickedCandidate :=
  let locked := context.lockedSteps.bind fun m => m (stepIndex + 1)
  match locked with
  | some lockedPlace =>
    if lockedPlace.id ∉ context.visited ∧ isValidForStep lockedPlace step = true then
      let distanceKm := dist context.currentPlace lockedPlace
      let arriveAt := context.currentTime +
        travelMinutes distanceKm (context.transport.getD .foot)
      match validateWindow step arriveAt with
      | some startAt =>
        some ⟨lockedPlace, distanceKm, startAt, startAt + jsOr lockedPlace.estimatedDuration 60⟩
      | none => pickCandidateSearch dist score allPlaces step context
    else pickCandidateSearch dist score allPlaces step context
  | none => pickCandidateSearch dist score allPlaces step context

/-! ### `findPlaceForTime` -/

/-- Result record of `findPlaceForTime`. -/
structure FoundPlace where
  place : Place
  distanceKm : ℚ
  startAt : ℚ
  endAt : ℚ
  isMeal : Bool
  deriving DecidableEq, Repr

/-- The candidate-scan loop body of `findPlaceForTime`: reject hops beyond
the 1.5 km foot limit, compute arrival/start/end times, reject window and
maximum-end-time violations, and keep the strictly better-scoring
candidate. -/
def scanCandidate {S : Type} [LinearOrder S] (dist : Place → Place → ℚ)
    (score : Place → ScoreContext → S) (currentTime : ℚ) (fromPlace : Place)
    (transport : Transport) (baseDuration : ℚ) (maxEndTime : Option ℚ)
    (window : Option MealWindow) (userVector : UserVector)
    (selectedPlaces : List Place) (companion : Option Companion)
    (isRainy : Option Bool) (temperature : Option ℚ)
    (best : Option (PickedCandidate × S)) (place : Place) : Option (PickedCandidate × S) :=
  let distanceKm := dist fromPlace place
  if transport = .foot ∧ distanceKm > 3/2 then best
  else
    let travelTime := travelMinutes distanceKm transport
    let arriveAt := currentTime + travelTime
    let startAtOpt : Option ℚ :=
      match window with
      | none => some arriveAt
      | some w =>
        let arriveMinutes := minutesSinceMidnight arriveAt
        if arriveMinutes > w.endMinutes then none
        else some (setTimeOfDay arriveAt (jsMax arriveMinutes w.startMinutes))
    match startAtOpt with
    | none => best
    | some startAt =>
      let endAt := startAt + jsOr place.estimatedDuration baseDuration
      if (match maxEndTime with | some m => decide (endAt > m) | none => false) = true
      then best
      else
        let s := score place
          ⟨userVector, isRainy.getD false, temperature.getD 20, some distanceKm,
           selectedPlaces, companion, some transport⟩
        match best with
        | none => some (PickedCandidate.mk place distanceKm startAt endAt, s)
        | some b =>
          if s > b.2 then some (PickedCandidate.mk place distanceKm startAt endAt, s)
          else best

/-- The category/meal-type/window determination of `findPlaceForTime`. -/
structure TimeStepSpec where
  preferredTypes : List PlaceType
  mealType : Option MealType
  window : Option MealWindow
  isMeal : Bool

/-- Determine what kind of venue the time-fill step needs, purely from the
current time of day relative to the meal windows: an unscheduled lunch or
dinner inside its window demands a restaurant; between the lunch end and the
dinner start a cafe break; otherwise a general activity step (restaurants
excluded). -/
def impliedStepSpec (currentTime : ℚ) (mealWindows : Option MealWindows)
    (hasHadLunch hasHadDinner : Bool) : TimeStepSpec :=
  let currentMinutes := minutesSinceMidnight currentTime
  let lunchWindow := (mealWindows.bind (·.lunch)).getD DEFAULT_LUNCH_WINDOW
  let dinnerWindow := (mealWindows.bind (·.dinner)).getD DEFAULT_DINNER_WINDOW
  if ¬hasHadLunch = true ∧ lunchWindow.startMinutes ≤ currentMinutes ∧
      currentMinutes ≤ lunchWindow.endMinutes then
    ⟨[.restaurant], some .lunch, some lunchWindow, true⟩
  else if ¬hasHadDinner = true ∧ dinnerWindow.startMinutes ≤ currentMinutes ∧
      currentMinutes ≤ dinnerWindow.endMinutes then
    ⟨[.restaurant], some .dinner, some dinnerWindow, true⟩
  else if lunchWindow.endMinutes < currentMinutes ∧
      currentMinutes < dinnerWindow.startMinutes then
    ⟨[.cafe, .bakery], some .cafe, none, false⟩
  else
    ⟨[.activity, .cafe, .culture, .shopping], none, none, false⟩

/-- `findPlaceForTime`: determine the step's implied category/meal type from
the current time of day, filter the pool, and return the best-scoring
feasible candidate with its computed times. -/
def findPlaceForTime {S : Type} [LinearOrder S] (dist : Place → Place → ℚ)
    (score : Place → ScoreContext → S) (currentTime : ℚ) (fromPlace : Place)
    (allPlaces : List Place) (visited : List String) (mealWindows : Option MealWindows)
    (transport : Transport) (baseDuration : ℚ) (maxEndTime : Option ℚ)
    (hasHadLunch hasHadDinner : Bool) (userVector : UserVector)
    (selectedPlaces : List Place) (companion : Option Companion)
    (isRainy : Option Bool) (temperature : Option ℚ) : Option FoundPlace :=
  let sp := impliedStepSpec currentTime mealWindows hasHadLunch hasHadDinner
  let candidates := allPlaces.filter fun p =>
    decide (p.id ∉ visited ∧
      (if sp.isMeal = true then
        p.type ∈ sp.preferredTypes ∧
          (sp.mealType = none ∨ p.mealType = none ∨ p.mealType = sp.mealType)
      else p.type ∈ sp.preferredTypes ∧ p.type ≠ .restaurant))
  if candidates = [] then none
  else
    let best := candidates.foldl
      (scanCandidate dist score currentTime fromPlace transport baseDuration maxEndTime
        sp.window userVector selectedPlaces companion isRainy temperature)
      (none : Option (PickedCandidate × S))
    best.map fun b => ⟨b.1.place, b.1.distanceKm, b.1.startAt, b.1.endAt, sp.isMeal⟩

/-! ### The itinerary builder (`generateCourse`) -/

structure CourseStep where
  place : Place
  startTime : ℚ
  endTime : ℚ
  travelTime : ℚ
  deriving DecidableEq, Repr

structure GeneratedCourse where
  sequence : List Place
  steps : List CourseStep
  totalDistance : ℚ
  estimatedDuration : ℤ
  deriving DecidableEq, Repr

structure Weather where
  temp : ℚ
  isRainy : Bool

/-- `CourseGenerationOptions`.  `startLocation` is `Option` because the
builder null-checks it (the TS type is required but the caller may pass a
missing value, which is exactly the failure mode of claim C1). -/
structure CourseGenerationOptions where
  startLocation : Option Place
  userPreferences : UserVector
  weather : Weather
  startTime : ℚ
  endLocation : Option Place
  endTime : Option ℚ
  mustVisitPlaces : Option (List Place)
  lockedSteps : Option (Nat → Option Place)
  mealWindows : Option MealWindows
  companion : Option Companion
  transport : Option Transport
  intensity : Option Intensity
  duration : Option ℚ

/-- The hard maximum end time of a session: the earlier of the explicit end
time (when given) and start time + duration hours (default 6). -/
def effectiveMaxEndTime (options : CourseGenerationOptions) : ℚ :=
  let durationEndTime := options.startTime + options.duration.getD 6 * 60
  match options.endTime with
  | some e => jsMin e durationEndTime
  | none => durationEndTime

/-- The mutable state of the builder loops. -/
structure BuildState where
  sequence : List Place
  steps : List CourseStep
  visited : List String
  selectedPlaces : List Place
  totalDistance : ℚ
  currentPlace : Place
  currentTime : ℚ
  hasHadLunch : Bool
  hasHadDinner : Bool

/-- The values the builder's loops close over (destructured options plus the
two oracle parameters). -/
structure GenEnv (S : Type) where
  dist : Place → Place → ℚ
  score : Place → ScoreContext → S
  allPlaces : List Place
  mealWindows : Option MealWindows
  transport : Transport
  companion : Companion
  baseDuration : ℚ
  maxEndTime : ℚ
  userVector : UserVector
  isRainy : Bool
  temp : ℚ
  targetEndLocation : Option Place

/-- The duplicated flag-update block run after visiting an anchor: a
restaurant anchor reached inside a meal window marks that meal as had. -/
def updateAnchorMealFlags {S : Type} (env : GenEnv S) (anchor : Place) (arriveAt : ℚ)
    (st : BuildState) : BuildState :=
  let currentMinutes := minutesSinceMidnight arriveAt
  let lunchWindow := (env.mealWindows.bind (·.lunch)).getD DEFAULT_LUNCH_WINDOW
  let dinnerWindow := (env.mealWindows.bind (·.dinner)).getD DEFAULT_DINNER_WINDOW
  if anchor.type = .restaurant then
    if ¬st.hasHadLunch = true ∧ lunchWindow.startMinutes ≤ currentMinutes ∧
        currentMinutes ≤ lunchWindow.endMinutes then
      { st with hasHadLunch := true }
    else if ¬st.hasHadDinner = true ∧ dinnerWindow.startMinutes ≤ currentMinutes ∧
        currentMinutes ≤ dinnerWindow.endMinutes then
      { st with hasHadDinner := true }
    else st
  else st

/-- The duplicated "try to add the end location" block (anchor-phase timeout
and phase-2 overrun): append the end venue as a zero-duration final step when
it is unvisited and reachable by the maximum end time.  Note that it does not
advance `currentPlace`/`currentTime`. -/
def tryAppendEndLocation {S : Type} (env : GenEnv S) (st : BuildState) : BuildState :=
  match env.targetEndLocation with
  | none => st
  | some e =>
    if e.id ∈ st.visited then st
    else
      let distanceToEnd := env.dist st.currentPlace e
      let travelTime := travelMinutes distanceToEnd env.transport
      let arriveAt := st.currentTime + travelTime
      if arriveAt ≤ env.maxEndTime then
        { st with
          sequence := st.sequence ++ [e]
          steps := st.steps ++ [⟨e, arriveAt, arriveAt, travelTime⟩]
          totalDistance := st.totalDistance + distanceToEnd
          visited := e.id :: st.visited }
      else st

/-- The finalisation block: one last attempt to append the end location (it
does not mark the venue visited, being the last action of the builder). -/
def finalAppendEnd {S : Type} (env : GenEnv S) (st : BuildState) : BuildState :=
  match env.targetEndLocation with
  | none => st
  | some e =>
    if e.id ∈ st.visited then st
    else
      let distanceToEnd := env.dist st.currentPlace e
      let travelTime := travelMinutes distanceToEnd env.transport
      let arriveAt := st.currentTime + travelTime
      if arriveAt ≤ env.maxEndTime then
        { st with
          sequence := st.sequence ++ [e]
          steps := st.steps ++ [⟨e, arriveAt, arriveAt, travelTime⟩]
          totalDistance := st.totalDistance + distanceToEnd }
      else st

/-- Shorthand for the `findPlaceForTime` call the builder makes (both when
inserting an intermediate stop towards an anchor and in the time-fill
phase). -/
def findPlaceForTimeEnv {S : Type} [LinearOrder S] (env : GenEnv S) (st : BuildState) :
    Option FoundPlace :=
  findPlaceForTime env.dist env.score st.currentTime st.currentPlace env.allPlaces
    st.visited env.mealWindows env.transport env.baseDuration (some env.maxEndTime)
    st.hasHadLunch st.hasHadDinner env.userVector st.selectedPlaces (some env.companion)
    (some env.isRainy) (some env.temp)

/-- Visit a venue: append it to the sequence, the steps timeline, the
diversity-tracking list and the visited set, and make it the current place
and its end time the current time. -/
def advanceTo (p : Place) (startAt endAt travelTime dKm : ℚ) (st : BuildState) : BuildState :=
  { st with
    sequence := st.sequence ++ [p]
    selectedPlaces := st.selectedPlaces ++ [p]
    steps := st.steps ++ [⟨p, startAt, endAt, travelTime⟩]
    totalDistance := st.totalDistance + dKm
    visited := p.id :: st.visited
    currentPlace := p
    currentTime := endAt }

/-- Same as `advanceTo` but without the diversity-tracking append — the
source's direct-to-anchor fallback (taken when no intermediate stop exists)
omits the `selectedPlaces.push`. -/
def advanceToNoTrack (p : Place) (startAt endAt travelTime dKm : ℚ) (st : BuildState) :
    BuildState :=
  { st with
    sequence := st.sequence ++ [p]
    steps := st.steps ++ [⟨p, startAt, endAt, travelTime⟩]
    totalDistance := st.totalDistance + dKm
    visited := p.id :: st.visited
    currentPlace := p
    currentTime := endAt }

/-- The duplicated flag-update block run after a scored (`findPlaceForTime`)
step: a meal step marks lunch or dinner as had according to the venue's own
meal type. -/
def applyMealFlags (isMeal : Bool) (place : Place) (st : BuildState) : BuildState :=
  if isMeal = true then
    if place.mealType = some .lunch then { st with hasHadLunch := true }
    else if place.mealType = some .dinner then { st with hasHadDinner := true }
    else st
  else st

/-- The inner anchor-routing loop (`while (currentPlace.id !== anchor.id)`):
when the anchor is beyond the 1.5 km foot limit, insert one scored
intermediate stop and retry, else (or when no intermediate exists) hop
directly to the anchor if it fits the time budget.  `fuel` is a structural
bound on iterations; every continuing iteration marks a previously
unvisited venue visited, so `allPlaces.length + 1` fuel at the call site is
never exhausted. -/
def anchorWhile {S : Type} [LinearOrder S] (env : GenEnv S) (fuel : Nat) (anchor : Place)
    (st : BuildState) : BuildState :=
  match fuel with
  | 0 => st
  | fuel + 1 =>
    if st.currentPlace.id = anchor.id then st
    else
      let distanceToAnchor := env.dist st.currentPlace anchor
      if env.transport = .foot ∧ distanceToAnchor > 3/2 then
        match findPlaceForTimeEnv env st with
        | none =>
          -- no intermediate: try the direct hop regardless of the foot limit
          let travelTime := travelMinutes distanceToAnchor env.transport
          let arriveAt := st.currentTime + travelTime
          let endAt := arriveAt + jsOr anchor.estimatedDuration env.baseDuration
          if endAt > env.maxEndTime then st
          else
            updateAnchorMealFlags env anchor arriveAt
              (advanceToNoTrack anchor arriveAt endAt travelTime distanceToAnchor st)
        | some intermediate =>
          let stMid := advanceTo intermediate.place intermediate.startAt intermediate.endAt
            (travelMinutes intermediate.distanceKm env.transport) intermediate.distanceKm st
          let stFlag := applyMealFlags intermediate.isMeal intermediate.place stMid
          if stFlag.currentTime ≥ env.maxEndTime then stFlag
          else anchorWhile env fuel anchor stFlag
      else
        -- the anchor is directly reachable
        let travelTime := travelMinutes distanceToAnchor env.transport
        let arriveAt := st.currentTime + travelTime
        let endAt := arriveAt + jsOr anchor.estimatedDuration env.baseDuration
        if endAt > env.maxEndTime then st
        else
          updateAnchorMealFlags env anchor arriveAt
            (advanceTo anchor arriveAt endAt travelTime distanceToAnchor st)

/-- Phase 1 — anchor routing: route through the must-visit anchors in order
(with the end venue as an implicit final anchor).  Reaching the maximum end
time makes one final attempt at the end venue and abandons the remaining
anchors. -/
def anchorLoop {S : Type} [LinearOrder S] (env : GenEnv S) (anchors : List Place)
    (st : BuildState) : BuildState :=
  match anchors with
  | [] => st
  | anchor :: rest =>
    if anchor.id ∈ st.visited then anchorLoop env rest st
    else if st.currentTime ≥ env.maxEndTime then tryAppendEndLocation env st
    else anchorLoop env rest (anchorWhile env (env.allPlaces.length + 1) anchor st)

/-- Phase 2 — time fill: while at least 30 minutes of budget remain, append
the best-scoring venue for the current time of day; stop when none exists
(after a final attempt at the end venue when the pick would overrun).
`fuel` as in `anchorWhile`. -/
def fillLoop {S : Type} [LinearOrder S] (env : GenEnv S) (fuel : Nat) (st : BuildState) :
    BuildState :=
  match fuel with
  | 0 => st
  | fuel + 1 =>
    if st.currentTime < env.maxEndTime then
      let remainingMinutes := env.maxEndTime - st.currentTime
      if remainingMinutes < 30 then st
      else
        match findPlaceForTimeEnv env st with
        | none => st
        | some nextPlace =>
          if nextPlace.endAt > env.maxEndTime then tryAppendEndLocation env st
          else
            let stMid := advanceTo nextPlace.place nextPlace.startAt nextPlace.endAt
              (travelMinutes nextPlace.distanceKm env.transport) nextPlace.distanceKm st
            let stFlag := applyMealFlags nextPlace.isMeal nextPlace.place stMid
            fillLoop env fuel stFlag
    else st

/-- The environment the builder destructures out of its options (defaults:
solo companion, foot transport, relaxed intensity, 6-hour duration; relaxed
intensity gives a 90-minute base stop duration, packed 60). -/
def mkGenEnv {S : Type} (dist : Place → Place → ℚ) (score : Place → ScoreContext → S)
    (allPlaces : List Place) (options : CourseGenerationOptions) : GenEnv S :=
  { dist := dist
    score := score
    allPlaces := allPlaces
    mealWindows := options.mealWindows
    transport := options.transport.getD .foot
    companion := options.companion.getD .solo
    baseDuration := if options.intensity.getD .relaxed = .relaxed then 90 else 60
    maxEndTime := effectiveMaxEndTime options
    userVector := options.userPreferences
    isRainy := options.weather.isRainy
    temp := options.weather.temp
    targetEndLocation := options.endLocation }

/-- The builder's initial state: the start venue as step 0 with
start = end = startTime and zero travel time. -/
def initialState (startLocation : Place) (startTime : ℚ) : BuildState :=
  { sequence := [startLocation]
    steps := [⟨startLocation, startTime, startTime, 0⟩]
    visited := [startLocation.id]
    selectedPlaces := [startLocation]
    totalDistance := 0
    currentPlace := startLocation
    currentTime := startTime
    hasHadLunch := false
    hasHadDinner := false }

/-- The anchor worklist: the must-visit venues in order, with the end venue
appended as an implicit final anchor when not already among them. -/
def anchorsOf (options : CourseGenerationOptions) : List Place :=
  let mustVisitPlaces := options.mustVisitPlaces.getD []
  mustVisitPlaces ++
    (match options.endLocation with
     | some e =>
       if (mustVisitPlaces.find? (fun p => p.id = e.id)).isSome then [] else [e]
     | none => [])

/-- `generateCourse`: null-check the start venue, run anchor routing, time
fill and the final end-venue attempt, and package the result. -/
def generateCourse {S : Type} [LinearOrder S] (dist : Place → Place → ℚ)
    (score : Place → ScoreContext → S) (allPlaces : List Place)
    (options : CourseGenerationOptions) : Option GeneratedCourse :=
  match options.startLocation with
  | none => none
  | some startLocation =>
    let env := mkGenEnv dist score allPlaces options
    let st1 := anchorLoop env (anchorsOf options) (initialState startLocation options.startTime)
    let st2 := fillLoop env (allPlaces.length + 1) st1
    let st3 := finalAppendEnd env st2
    let finalTime :=
      match st3.steps.getLast? with
      | some s => s.endTime
      | none => st3.currentTime
    some
      { sequence := st3.sequence
        steps := st3.steps
        totalDistance := ((round (st3.totalDistance * 10) : ℤ) : ℚ) / 10
        estimatedDuration := round (finalTime - options.startTime) }

/-! ### Concrete instances used by witnesses and counterexamples -/

/-- A start venue. -/
def wPlaceA : Place := ⟨"A", "Start Square", "", .landmark, 0, 0, false, "", [], none, none⟩

/-- An activity venue. -/
def wPlaceB : Place := ⟨"B", "Fun Zone", "", .activity, 0, 0, true, "", [], none, some 60⟩

/-- A cafe venue (given the best oracle score below). -/
def wPlaceC : Place := ⟨"C", "Corner Cafe", "", .cafe, 0, 0, true, "", [], none, some 60⟩

/-- A concrete distance oracle: 0.3 km between distinct venues. -/
def wDist : Place → Place → ℚ := fun p q => if p.id = q.id then 0 else 3/10

/-- A concrete score oracle preferring venue C. -/
def wScore : Place → ScoreContext → ℚ := fun p _ => if p.id = "C" then 100 else 50

/-- Baseline options: start at venue A at 10:00, two-hour budget, all
optional fields absent. -/
def wOpts : CourseGenerationOptions :=
  { startLocation := some wPlaceA
    userPreferences := INITIAL_USER_VECTOR
    weather := ⟨20, false⟩
    startTime := 600
    endLocation := none
    endTime := none
    mustVisitPlaces := none
    lockedSteps := none
    mealWindows := none
    companion := none
    transport := none
    intensity := none
    duration := some 2 }

/-- Options whose explicit end time (500 = 8:20) precedes the start time. -/
def wOptsEndEarly : CourseGenerationOptions := { wOpts with endTime := some 500 }

/-- Options locking venue B at sequence index 1. -/
def wOptsLockedB : CourseGenerationOptions :=
  { wOpts with lockedSteps := some (fun n => if n = 1 then some wPlaceB else none) }

/-- The itinerary the builder produces from `wOpts` (and, `lockedSteps`
being ignored, from `wOptsLockedB`) over the pool [A, B, C]: the oracle
score prefers C for the one step that fits the two-hour budget. -/
def wCourse : GeneratedCourse :=
  { sequence := [wPlaceA, wPlaceC]
    steps := [⟨wPlaceA, 600, 600, 0⟩, ⟨wPlaceC, 3018/5, 3318/5, 18/5⟩]
    totalDistance := 3/10
    estimatedDuration := 64 }

/-- The itinerary produced from `wOptsEndEarly` over the pool [A]: just the
start step, whose end time 600 exceeds the effective maximum end time 500. -/
def wCourseEndEarly : GeneratedCourse :=
  { sequence := [wPlaceA]
    steps := [⟨wPlaceA, 600, 600, 0⟩]
    totalDistance := 0
    estimatedDuration := 0 }

/-- A warm-up step definition (no meal constraint, no window). -/
def wStepWarmup : StepDefinition :=
  ⟨"Warm-up", [.activity, .cafe, .culture, .shopping], none, none, none⟩

/-- A pick-candidate context at venue A, 10:00, with venue B locked at
sequence index 1. -/
def wPickCtx : PickCandidateContext :=
  { visited := ["A"]
    userVector := INITIAL_USER_VECTOR
    isRainy := false
    temperature := 20
    currentTime := 600
    currentPlace := wPlaceA
    lockedSteps := some (fun n => if n = 1 then some wPlaceB else none)
    transport := some .foot
    companion := none
    selectedPlaces := some [wPlaceA] }

/-! ### Invariants of the builder state (used by the proofs below) -/

/-- The venue ids of the steps list, in order. -/
def stepIds (st : BuildState) : List String := st.steps.map fun s => s.place.id

/-- The per-hop property of claim C4: consecutive steps are at most 1.5 km
apart, except when the later one is a user-specified anchor or the end
venue (collected in `exc`). -/
def PairOK {S : Type} (env : GenEnv S) (exc : List Place) (a b : CourseStep) : Prop :=
  env.dist a.place b.place ≤ 3/2 ∨ b.place ∈ exc

/-- The master invariant of the builder state: the start step stays at the
head, sequence and steps list the same venue ids, ids are pairwise distinct,
every step after the start ends by the maximum end time, and on foot every
consecutive hop satisfies `PairOK`. -/
def BuildInv {S : Type} (env : GenEnv S) (exc : List Place) (s0 : CourseStep)
    (st : BuildState) : Prop :=
  st.steps.head? = some s0 ∧
  st.sequence.map (fun p => p.id) = stepIds st ∧
  (stepIds st).Nodup ∧
  (∀ s ∈ st.steps.drop 1, s.endTime ≤ env.maxEndTime) ∧
  (env.transport = .foot → List.Chain' (PairOK env exc) st.steps)

/-- Every step's venue id has been marked visited. -/
def Covered (st : BuildState) : Prop := ∀ i ∈ stepIds st, i ∈ st.visited

/-- The current place is the venue of the last step (true throughout the
loops; the terminal end-venue appends are the only places that break it). -/
def Linked (st : BuildState) : Prop :=
  st.steps.getLast?.map (fun s => s.place) = some st.currentPlace

/-- The end venue exists and has been marked visited (the state after a
successful terminal end-venue append). -/
def EndVisited {S : Type} (env : GenEnv S) (st : BuildState) : Prop :=
  ∃ e, env.targetEndLocation = some e ∧ e.id ∈ st.visited

/-! ### Helper lemmas -/

theorem round3_le_add (q : ℚ) : round3 q ≤ q + 1/2000 := by
  have h := abs_sub_round (q * 1000)
  rw [abs_le] at h
  have h1 : (round (q * 1000) : ℚ) ≤ q * 1000 + 1/2 := by linarith [h.1]
  unfold round3
  rw [div_le_iff₀ (by norm_num : (0:ℚ) < 1000)]
  linarith

theorem jsMin_eq_min (a b : ℚ) : jsMin a b = min a b := (min_def a b).symm

theorem jsMax_eq_max (a b : ℚ) : jsMax a b = max a b := (max_def a b).symm

theorem sub_le_round3 (q : ℚ) : q - 1/2000 ≤ round3 q := by
  have h := abs_sub_round (q * 1000)
  rw [abs_le] at h
  have h1 : q * 1000 - 1/2 ≤ (round (q * 1000) : ℚ) := by linarith [h.2]
  unfold round3
  rw [le_div_iff₀ (by norm_num : (0:ℚ) < 1000)]
  linarith

/-- C10 part 1: every feature-vector dimension is 0.5, 0.8 or 1.0. -/
theorem placeToFeatureVector_values (place : Place) (dim : Dim) :
    placeToFeatureVector place dim = 1/2 ∨ placeToFeatureVector place dim = 4/5 ∨
      placeToFeatureVector place dim = 1 := by
  cases dim <;> (simp only [placeToFeatureVector]; split_ifs <;> norm_num)

theorem placeToFeatureVector_pos (place : Place) (dim : Dim) :
    0 < placeToFeatureVector place dim := by
  rcases placeToFeatureVector_values place dim with h | h | h <;> rw [h] <;> norm_num

/-- Because the feature-vector baseline is strictly positive, the guard in
`updateUserVector` is always taken: every dimension receives the delta. -/
theorem updateUserVector_apply (place : Place) (action : FeedbackAction)
    (current : UserVector) (dim : Dim) :
    updateUserVector place action current dim =
      max 0 (min 1 (round3 (current dim +
        (if action = .LIKE then 1/10 else -(1/5))))) := by
  simp only [updateUserVector]
  rw [if_pos (placeToFeatureVector_pos place dim), jsMax_eq_max, jsMin_eq_min]

/-! ### Claim C10 — the feature-vector baseline is strictly positive -/

/-- C10: every dimension of `placeToFeatureVector` is 0.5, 0.8 or 1.0 (never
below the 0.5 baseline), hence strictly positive; consequently
`updateUserVector` applies its LIKE/DISLIKE delta to all ten dimensions of
every place, not only to specifically represented ones. -/
theorem C10_featureVector_baseline (place : Place) :
    (∀ dim, 1/2 ≤ placeToFeatureVector place dim ∧
      (placeToFeatureVector place dim = 1/2 ∨ placeToFeatureVector place dim = 4/5 ∨
        placeToFeatureVector place dim = 1)) ∧
    (∀ dim, 0 < placeToFeatureVector place dim) ∧
    (∀ action current dim,
      updateUserVector place action current dim =
        max 0 (min 1 (round3 (current dim +
          (if action = .LIKE then 1/10 else -(1/5)))))) := by
  refine ⟨fun dim => ⟨?_, placeToFeatureVector_values place dim⟩,
    placeToFeatureVector_pos place, fun action current dim => ?_⟩
  · rcases placeToFeatureVector_values place dim with h | h | h <;> rw [h] <;> norm_num
  · exact updateUserVector_apply place action current dim

/-! ### Claim C6 — feedback updates are monotone and stay in [0, 1] -/

/-- C6: starting from a vector with all dimensions in [0,1], a LIKE update
never decreases any dimension, a DISLIKE update never increases any
dimension, and both keep every dimension in [0,1]. -/
theorem C6_updateUserVector_bounds (place : Place) (current : UserVector)
    (h : ∀ dim, 0 ≤ current dim ∧ current dim ≤ 1) :
    (∀ dim, current dim ≤ updateUserVector place .LIKE current dim) ∧
    (∀ dim, updateUserVector place .DISLIKE current dim ≤ current dim) ∧
    (∀ action dim, 0 ≤ updateUserVector place action current dim ∧
      updateUserVector place action current dim ≤ 1) := by
  refine ⟨fun dim => ?_, fun dim => ?_, fun action dim => ?_⟩
  · rw [updateUserVector_apply, if_pos rfl]
    have hr := sub_le_round3 (current dim + 1/10)
    exact le_max_of_le_right (le_min (h dim).2 (by linarith))
  · rw [updateUserVector_apply, if_neg (by decide)]
    have hr := round3_le_add (current dim + -(1/5))
    exact max_le (h dim).1 (le_trans (min_le_right 1 _) (by linarith))
  · rw [updateUserVector_apply]
    exact ⟨le_max_left 0 _, max_le (by norm_num) (min_le_left 1 _)⟩

/-- Witness for C6 at a concrete place and the initial (all-0.5) vector. -/
theorem C6_witness :
    (∀ dim, 0 ≤ INITIAL_USER_VECTOR dim ∧ INITIAL_USER_VECTOR dim ≤ 1) ∧
    (∀ dim, INITIAL_USER_VECTOR dim ≤ updateUserVector wPlaceB .LIKE INITIAL_USER_VECTOR dim) := by
  have h : ∀ dim, 0 ≤ INITIAL_USER_VECTOR dim ∧ INITIAL_USER_VECTOR dim ≤ 1 := by
    intro dim
    exact ⟨by norm_num [INITIAL_USER_VECTOR], by norm_num [INITIAL_USER_VECTOR]⟩
  exact ⟨h, (C6_updateUserVector_bounds wPlaceB INITIAL_USER_VECTOR h).1⟩

/-! ### Claim C9 — travel-time formulas -/

/-- C9: walking time is 12 min/km capped at 90 minutes; driving time is
3 min/km capped at 60 minutes before the fixed 10-minute parking overhead. -/
theorem C9_travelMinutes (d : ℚ) (h : 0 ≤ d) :
    travelMinutes d .foot = min 90 (12 * d) ∧
    travelMinutes d .car = min 60 (3 * d) + 10 := by
  constructor <;> simp [travelMinutes, jsMin_eq_min, mul_comm]

/-- Witness for C9 at distance 2 km. -/
theorem C9_witness :
    (0:ℚ) ≤ 2 ∧ travelMinutes 2 .foot = min 90 (12 * 2) ∧
      travelMinutes 2 .car = min 60 (3 * 2) + 10 :=
  ⟨by norm_num, (C9_travelMinutes 2 (by norm_num)).1, (C9_travelMinutes 2 (by norm_num)).2⟩

/-! ### Claim C8 — the diversity multiplier -/

/-- C8: the diversity multiplier equals 0.6 to the power of the number of
already-selected venues of the same category (so 1, 0.6, 0.36, 0.216, … for
the 1st, 2nd, 3rd, 4th occurrence). -/
theorem C8_diversityPenalty (place : Place) (selectedPlaces : List Place) :
    calculateDiversityPenalty place selectedPlaces =
      (3/5) ^ (selectedPlaces.filter (fun p => p.type = place.type)).length ∧
    ((3/5 : ℚ) ^ (0:ℕ) = 1 ∧ (3/5 : ℚ) ^ (1:ℕ) = 6/10 ∧
      (3/5 : ℚ) ^ (2:ℕ) = 36/100 ∧ (3/5 : ℚ) ^ (3:ℕ) = 216/1000) := by
  refine ⟨?_, by norm_num, by norm_num, by norm_num, by norm_num⟩
  unfold calculateDiversityPenalty
  split_ifs with h
  · rw [h]; simp
  · rfl

/-! ### Claim C1 — null exactly when the start venue is missing -/

/-- C1: `generateCourse` returns null if and only if no start venue is
supplied; with a start venue it always returns an itinerary. -/
theorem C1_generateCourse_none_iff {S : Type} [LinearOrder S] (dist : Place → Place → ℚ)
    (score : Place → ScoreContext → S) (allPlaces : List Place)
    (options : CourseGenerationOptions) :
    generateCourse dist score allPlaces options = none ↔ options.startLocation = none := by
  cases h : options.startLocation
  · simp [generateCourse, h]
  · simp [generateCourse, h]

/-! ### Claim C7 — cosine similarity lies in [0, 1] -/

/-- C7: for vectors with non-negative components the cosine similarity lies
in [0, 1], and it is exactly 0 whenever either vector has zero magnitude. -/
theorem C7_cosineSimilarity_range (u v : Dim → ℝ) (hu : ∀ d, 0 ≤ u d) (hv : ∀ d, 0 ≤ v d) :
    0 ≤ cosineSimilarity u v ∧ cosineSimilarity u v ≤ 1 ∧
      ((Real.sqrt (∑ d : Dim, u d * u d) = 0 ∨ Real.sqrt (∑ d : Dim, v d * v d) = 0) →
        cosineSimilarity u v = 0) := by
  have hrfl : cosineSimilarity u v =
      (if Real.sqrt (∑ d : Dim, u d * u d) * Real.sqrt (∑ d : Dim, v d * v d) = 0 then 0
       else (∑ d : Dim, u d * v d) /
         (Real.sqrt (∑ d : Dim, u d * u d) * Real.sqrt (∑ d : Dim, v d * v d))) := rfl
  rw [hrfl]
  set dot := ∑ d : Dim, u d * v d with hdotDef
  set nA := ∑ d : Dim, u d * u d with hnADef
  set nB := ∑ d : Dim, v d * v d with hnBDef
  have hdot0 : 0 ≤ dot := Finset.sum_nonneg fun d _ => mul_nonneg (hu d) (hv d)
  have hnA0 : 0 ≤ nA := Finset.sum_nonneg fun d _ => mul_nonneg (hu d) (hu d)
  have hnB0 : 0 ≤ nB := Finset.sum_nonneg fun d _ => mul_nonneg (hv d) (hv d)
  have hden0 : 0 ≤ Real.sqrt nA * Real.sqrt nB :=
    mul_nonneg (Real.sqrt_nonneg _) (Real.sqrt_nonneg _)
  have hCS : dot ≤ Real.sqrt nA * Real.sqrt nB := by
    have h2 : dot ^ 2 ≤ nA * nB := by
      have hcs := Finset.sum_mul_sq_le_sq_mul_sq Finset.univ u v
      simpa [hdotDef, hnADef, hnBDef, pow_two] using hcs
    calc dot = Real.sqrt (dot ^ 2) := (Real.sqrt_sq hdot0).symm
      _ ≤ Real.sqrt (nA * nB) := Real.sqrt_le_sqrt h2
      _ = Real.sqrt nA * Real.sqrt nB := Real.sqrt_mul hnA0 nB
  refine ⟨?_, ?_, ?_⟩
  · split_ifs with hz
    · exact le_refl 0
    · exact div_nonneg hdot0 hden0
  · split_ifs with hz
    · norm_num
    · have hpos : 0 < Real.sqrt nA * Real.sqrt nB := lt_of_le_of_ne hden0 (Ne.symm hz)
      exact (div_le_one hpos).mpr hCS
  · intro hzero
    split_ifs with hz
    · rfl
    · exfalso
      apply hz
      rcases hzero with h1 | h1 <;> rw [h1] <;> ring

/-- Witness for C7 at the all-ones pair of vectors. -/
theorem C7_witness :
    0 ≤ cosineSimilarity (fun _ => (1:ℝ)) (fun _ => (1:ℝ)) ∧
      cosineSimilarity (fun _ => (1:ℝ)) (fun _ => (1:ℝ)) ≤ 1 := by
  have h := C7_cosineSimilarity_range (fun _ => (1:ℝ)) (fun _ => (1:ℝ))
    (fun d => zero_le_one) (fun d => zero_le_one)
  exact ⟨h.1, h.2.1⟩

/-! ### The candidate scan returns feasible candidates -/

theorem foldl_preserves {α β : Type} {f : β → α → β} {P : β → Prop} {Q : α → Prop}
    (hstep : ∀ b a, P b → Q a → P (f b a)) :
    ∀ (l : List α) (acc : β), (∀ a ∈ l, Q a) → P acc → P (l.foldl f acc)
  | [], _, _, hacc => hacc
  | a :: l, acc, hl, hacc =>
    foldl_preserves hstep l (f acc a) (fun x hx => hl x (List.mem_cons_of_mem a hx))
      (hstep acc a hacc (hl a (List.mem_cons_self a l)))

theorem scanCandidate_good {S : Type} [LinearOrder S] (dist : Place → Place → ℚ)
    (score : Place → ScoreContext → S) (currentTime : ℚ) (fromPlace : Place)
    (transport : Transport) (baseDuration : ℚ) (mEnd : ℚ)
    (window : Option MealWindow) (userVector : UserVector)
    (selectedPlaces : List Place) (companion : Option Companion)
    (isRainy : Option Bool) (temperature : Option ℚ) (visited : List String)
    (best : Option (PickedCandidate × S)) (place : Place)
    (hbest : ∀ b, best = some b → b.1.place.id ∉ visited ∧ b.1.endAt ≤ mEnd ∧
      (transport = .foot → dist fromPlace b.1.place ≤ 3/2))
    (hplace : place.id ∉ visited) :
    ∀ b, scanCandidate dist score currentTime fromPlace transport baseDuration (some mEnd)
        window userVector selectedPlaces companion isRainy temperature best place = some b →
      b.1.place.id ∉ visited ∧ b.1.endAt ≤ mEnd ∧
        (transport = .foot → dist fromPlace b.1.place ≤ 3/2) := by
  intro b hb
  simp only [scanCandidate] at hb
  split at hb
  · exact hbest b hb
  rename_i hfar
  split at hb
  · exact hbest b hb
  rename_i startAt heqw
  split at hb
  · exact hbest b hb
  rename_i hover
  split at hb
  · cases hb
    refine ⟨hplace, ?_, ?_⟩
    · simp only [decide_eq_true_eq] at hover
      exact not_lt.mp hover
    · intro hfoot
      by_contra hgt
      exact hfar ⟨hfoot, not_le.mp hgt⟩
  rename_i b2 heqb
  split at hb
  · cases hb
    refine ⟨hplace, ?_, ?_⟩
    · simp only [decide_eq_true_eq] at hover
      exact not_lt.mp hover
    · intro hfoot
      by_contra hgt
      exact hfar ⟨hfoot, not_le.mp hgt⟩
  · exact hbest b hb

theorem findPlaceForTime_spec {S : Type} [LinearOrder S] (dist : Place → Place → ℚ)
    (score : Place → ScoreContext → S) (currentTime : ℚ) (fromPlace : Place)
    (allPlaces : List Place) (visited : List String) (mealWindows : Option MealWindows)
    (transport : Transport) (baseDuration : ℚ) (mEnd : ℚ)
    (hasHadLunch hasHadDinner : Bool) (userVector : UserVector)
    (selectedPlaces : List Place) (companion : Option Companion)
    (isRainy : Option Bool) (temperature : Option ℚ) (r : FoundPlace)
    (h : findPlaceForTime dist score currentTime fromPlace allPlaces visited mealWindows
      transport baseDuration (some mEnd) hasHadLunch hasHadDinner userVector selectedPlaces
      companion isRainy temperature = some r) :
    r.place.id ∉ visited ∧ r.endAt ≤ mEnd ∧
      (transport = .foot → dist fromPlace r.place ≤ 3/2) := by
  simp only [findPlaceForTime] at h
  generalize impliedStepSpec currentTime mealWindows hasHadLunch hasHadDinner = sp at h
  split at h
  all_goals (
    split at h
    · exact absurd h (by simp)
    rw [Option.map_eq_some'] at h
    obtain ⟨b, hfold, hb⟩ := h
    rw [← hb]
    exact foldl_preserves
      (P := fun acc => ∀ x, acc = some x → x.1.place.id ∉ visited ∧ x.1.endAt ≤ mEnd ∧
        (transport = Transport.foot → dist fromPlace x.1.place ≤ 3/2))
      (Q := fun p => p.id ∉ visited)
      (fun acc p hacc hp => scanCandidate_good dist score currentTime fromPlace transport
        baseDuration mEnd _ userVector selectedPlaces companion isRainy temperature visited
        acc p hacc hp)
      _ none
      (fun p hp => by
        rw [List.mem_filter] at hp
        have h2 := hp.2
        simp only [decide_eq_true_eq] at h2
        exact h2.1)
      (fun x hx => absurd hx (by simp))
      b hfold)

/-! ### State-invariant preservation lemmas -/

theorem buildInv_push {S : Type} {env : GenEnv S} {exc : List Place} {s0 : CourseStep}
    {st st' : BuildState} (p : Place) (sAt eAt tt : ℚ)
    (hseq : st'.sequence = st.sequence ++ [p])
    (hsteps : st'.steps = st.steps ++ [⟨p, sAt, eAt, tt⟩])
    (hInv : BuildInv env exc s0 st) (hCov : Covered st) (hLink : Linked st)
    (hid : p.id ∉ st.visited)
    (hend : eAt ≤ env.maxEndTime)
    (hpair : env.transport = .foot → env.dist st.currentPlace p ≤ 3/2 ∨ p ∈ exc) :
    BuildInv env exc s0 st' := by
  obtain ⟨hhead, hmap, hnodup, hends, hchain⟩ := hInv
  have hne : st.steps ≠ [] := by
    intro hnil
    rw [hnil] at hhead
    exact absurd hhead (by simp)
  refine ⟨?_, ?_, ?_, ?_, ?_⟩
  · rw [hsteps, List.head?_append_of_ne_nil _ hne]
    exact hhead
  · simp only [stepIds, hseq, hsteps, List.map_append]
    simp only [stepIds] at hmap
    rw [hmap]
    simp
  · simp only [stepIds, hsteps, List.map_append]
    refine List.nodup_append.mpr ⟨hnodup, List.nodup_singleton _, ?_⟩
    intro a ha hb
    simp only [List.map_singleton, List.mem_singleton] at hb
    subst hb
    exact hid (hCov _ ha)
  · rw [hsteps, List.drop_one, List.tail_append_singleton_of_ne_nil hne]
    intro s hs
    rcases List.mem_append.mp hs with hmem | hmem
    · exact hends s (by rw [List.drop_one]; exact hmem)
    · rw [List.mem_singleton] at hmem
      subst hmem
      exact hend
  · intro hfoot
    rw [hsteps]
    refine List.chain'_append.mpr ⟨hchain hfoot, List.chain'_singleton _, ?_⟩
    intro x hx y hy
    simp only [List.head?_cons, Option.mem_def, Option.some_inj] at hy
    subst hy
    have hxp : x.place = st.currentPlace := by
      unfold Linked at hLink
      rw [Option.mem_def] at hx
      rw [hx] at hLink
      simpa using hLink
    unfold PairOK
    rw [hxp]
    exact hpair hfoot

theorem covered_push {st st' : BuildState} (p : Place) (sAt eAt tt : ℚ)
    (hsteps : st'.steps = st.steps ++ [⟨p, sAt, eAt, tt⟩])
    (hvis : st'.visited = p.id :: st.visited)
    (hCov : Covered st) : Covered st' := by
  intro i hi
  simp only [stepIds, hsteps, List.map_append, List.mem_append] at hi
  rw [hvis]
  rcases hi with hmem | hmem
  · exact List.mem_cons_of_mem _ (hCov i hmem)
  · simp only [List.map_singleton, List.mem_singleton] at hmem
    subst hmem
    exact List.mem_cons_self _ _

theorem linked_push {st st' : BuildState} (p : Place) (sAt eAt tt : ℚ)
    (hsteps : st'.steps = st.steps ++ [⟨p, sAt, eAt, tt⟩])
    (hcur : st'.currentPlace = p) : Linked st' := by
  unfold Linked
  rw [hsteps, hcur, List.getLast?_concat]
  rfl

theorem buildInv_congr {S : Type} {env : GenEnv S} {exc : List Place} {s0 : CourseStep}
    {st st' : BuildState} (hsteps : st'.steps = st.steps)
    (hseq : st'.sequence = st.sequence) (h : BuildInv env exc s0 st) :
    BuildInv env exc s0 st' := by
  unfold BuildInv stepIds at h ⊢
  rw [hsteps, hseq]
  exact h

theorem covered_congr {st st' : BuildState} (hsteps : st'.steps = st.steps)
    (hvis : st'.visited = st.visited) (h : Covered st) : Covered st' := by
  unfold Covered stepIds at h ⊢
  rw [hsteps, hvis]
  exact h

theorem linked_congr {st st' : BuildState} (hsteps : st'.steps = st.steps)
    (hcur : st'.currentPlace = st.currentPlace) (h : Linked st) : Linked st' := by
  unfold Linked at h ⊢
  rw [hsteps, hcur]
  exact h

theorem updateAnchorMealFlags_fields {S : Type} (env : GenEnv S) (anchor : Place)
    (arriveAt : ℚ) (st : BuildState) :
    (updateAnchorMealFlags env anchor arriveAt st).sequence = st.sequence ∧
    (updateAnchorMealFlags env anchor arriveAt st).steps = st.steps ∧
    (updateAnchorMealFlags env anchor arriveAt st).visited = st.visited ∧
    (updateAnchorMealFlags env anchor arriveAt st).currentPlace = st.currentPlace ∧
    (updateAnchorMealFlags env anchor arriveAt st).currentTime = st.currentTime := by
  simp only [updateAnchorMealFlags]
  split_ifs <;> exact ⟨rfl, rfl, rfl, rfl, rfl⟩

theorem applyMealFlags_fields (isMeal : Bool) (place : Place) (st : BuildState) :
    (applyMealFlags isMeal place st).sequence = st.sequence ∧
    (applyMealFlags isMeal place st).steps = st.steps ∧
    (applyMealFlags isMeal place st).visited = st.visited ∧
    (applyMealFlags isMeal place st).currentPlace = st.currentPlace ∧
    (applyMealFlags isMeal place st).currentTime = st.currentTime := by
  simp only [applyMealFlags]
  split_ifs <;> exact ⟨rfl, rfl, rfl, rfl, rfl⟩

theorem tryAppendEnd_post {S : Type} {env : GenEnv S} {exc : List Place} {s0 : CourseStep}
    {st : BuildState}
    (hInv : BuildInv env exc s0 st) (hCov : Covered st) (hLink : Linked st)
    (hexc : ∀ e, env.targetEndLocation = some e → e ∈ exc) :
    BuildInv env exc s0 (tryAppendEndLocation env st) ∧
    Covered (tryAppendEndLocation env st) ∧
    (Linked (tryAppendEndLocation env st) ∨ EndVisited env (tryAppendEndLocation env st)) ∧
    (tryAppendEndLocation env st).currentTime = st.currentTime := by
  simp only [tryAppendEndLocation]
  split
  · exact ⟨hInv, hCov, Or.inl hLink, rfl⟩
  rename_i e heq
  split_ifs with hvis harr
  · exact ⟨hInv, hCov, Or.inl hLink, rfl⟩
  · refine ⟨?_, ?_, ?_, rfl⟩
    · exact buildInv_push e _ _ _ rfl rfl hInv hCov hLink hvis harr
        (fun _ => Or.inr (hexc e heq))
    · exact covered_push e _ _ _ rfl rfl hCov
    · exact Or.inr ⟨e, heq, List.mem_cons_self _ _⟩
  · exact ⟨hInv, hCov, Or.inl hLink, rfl⟩

theorem finalAppendEnd_inv {S : Type} {env : GenEnv S} {exc : List Place} {s0 : CourseStep}
    {st : BuildState}
    (hInv : BuildInv env exc s0 st) (hCov : Covered st)
    (hLink : Linked st ∨ EndVisited env st)
    (hexc : ∀ e, env.targetEndLocation = some e → e ∈ exc) :
    BuildInv env exc s0 (finalAppendEnd env st) := by
  simp only [finalAppendEnd]
  split
  · exact hInv
  rename_i e heq
  split_ifs with hvis harr
  · exact hInv
  · have hL : Linked st := by
      rcases hLink with hL | ⟨e2, he2, hv2⟩
      · exact hL
      · rw [heq] at he2
        cases Option.some.inj he2
        exact absurd hv2 hvis
    exact buildInv_push e _ _ _ rfl rfl hInv hCov hL hvis harr
      (fun _ => Or.inr (hexc e heq))
  · exact hInv

theorem advanceTo_post {S : Type} {env : GenEnv S} {exc : List Place} {s0 : CourseStep}
    {st : BuildState} (p : Place) (sAt eAt tt d : ℚ)
    (hInv : BuildInv env exc s0 st) (hCov : Covered st) (hLink : Linked st)
    (hid : p.id ∉ st.visited) (hend : eAt ≤ env.maxEndTime)
    (hpair : env.transport = .foot → env.dist st.currentPlace p ≤ 3/2 ∨ p ∈ exc) :
    BuildInv env exc s0 (advanceTo p sAt eAt tt d st) ∧
      Covered (advanceTo p sAt eAt tt d st) ∧ Linked (advanceTo p sAt eAt tt d st) :=
  ⟨buildInv_push p sAt eAt tt rfl rfl hInv hCov hLink hid hend hpair,
   covered_push p sAt eAt tt rfl rfl hCov,
   linked_push p sAt eAt tt rfl rfl⟩

theorem advanceToNoTrack_post {S : Type} {env : GenEnv S} {exc : List Place} {s0 : CourseStep}
    {st : BuildState} (p : Place) (sAt eAt tt d : ℚ)
    (hInv : BuildInv env exc s0 st) (hCov : Covered st) (hLink : Linked st)
    (hid : p.id ∉ st.visited) (hend : eAt ≤ env.maxEndTime)
    (hpair : env.transport = .foot → env.dist st.currentPlace p ≤ 3/2 ∨ p ∈ exc) :
    BuildInv env exc s0 (advanceToNoTrack p sAt eAt tt d st) ∧
      Covered (advanceToNoTrack p sAt eAt tt d st) ∧
      Linked (advanceToNoTrack p sAt eAt tt d st) :=
  ⟨buildInv_push p sAt eAt tt rfl rfl hInv hCov hLink hid hend hpair,
   covered_push p sAt eAt tt rfl rfl hCov,
   linked_push p sAt eAt tt rfl rfl⟩

theorem anchorWhile_post {S : Type} [LinearOrder S] {env : GenEnv S} {exc : List Place}
    {s0 : CourseStep} (anchor : Place) (hanchor : anchor ∈ exc) :
    ∀ (fuel : Nat) (st : BuildState),
      BuildInv env exc s0 st → Covered st → Linked st →
      (anchor.id ∉ st.visited ∨ st.currentPlace.id = anchor.id) →
      BuildInv env exc s0 (anchorWhile env fuel anchor st) ∧
        Covered (anchorWhile env fuel anchor st) ∧ Linked (anchorWhile env fuel anchor st) := by
  intro fuel
  induction fuel with
  | zero =>
    intro st hInv hCov hLink _
    simp only [anchorWhile]
    exact ⟨hInv, hCov, hLink⟩
  | succ n ih =>
    intro st hInv hCov hLink hpre
    simp only [anchorWhile]
    by_cases hcur : st.currentPlace.id = anchor.id
    · rw [if_pos hcur]
      exact ⟨hInv, hCov, hLink⟩
    rw [if_neg hcur]
    have hid : anchor.id ∉ st.visited := hpre.resolve_right hcur
    by_cases hfar : env.transport = Transport.foot ∧ env.dist st.currentPlace anchor > 3/2
    · rw [if_pos hfar]
      cases hfp : findPlaceForTimeEnv env st with
      | none =>
        dsimp only
        split_ifs with hend
        · exact ⟨hInv, hCov, hLink⟩
        · refine ⟨buildInv_congr (updateAnchorMealFlags_fields _ _ _ _).2.1
            (updateAnchorMealFlags_fields _ _ _ _).1 ?_,
            covered_congr (updateAnchorMealFlags_fields _ _ _ _).2.1
              (updateAnchorMealFlags_fields _ _ _ _).2.2.1 ?_,
            linked_congr (updateAnchorMealFlags_fields _ _ _ _).2.1
              (updateAnchorMealFlags_fields _ _ _ _).2.2.2.1 ?_⟩
          · exact (advanceToNoTrack_post anchor _ _ _ _ hInv hCov hLink hid
              (not_lt.mp hend) (fun _ => Or.inr hanchor)).1
          · exact (advanceToNoTrack_post anchor _ _ _ _ hInv hCov hLink hid
              (not_lt.mp hend) (fun _ => Or.inr hanchor)).2.1
          · exact (advanceToNoTrack_post anchor _ _ _ _ hInv hCov hLink hid
              (not_lt.mp hend) (fun _ => Or.inr hanchor)).2.2
      | some intermediate =>
        dsimp only
        unfold findPlaceForTimeEnv at hfp
        have hspec := findPlaceForTime_spec env.dist env.score st.currentTime st.currentPlace
          env.allPlaces st.visited env.mealWindows env.transport env.baseDuration
          env.maxEndTime st.hasHadLunch st.hasHadDinner env.userVector st.selectedPlaces
          (some env.companion) (some env.isRainy) (some env.temp) intermediate hfp
        have hpp := advanceTo_post intermediate.place
          intermediate.startAt intermediate.endAt
          (travelMinutes intermediate.distanceKm env.transport) intermediate.distanceKm
          hInv hCov hLink hspec.1 hspec.2.1 (fun hf => Or.inl (hspec.2.2 hf))
        have hFlagInv := buildInv_congr
          (applyMealFlags_fields intermediate.isMeal intermediate.place _).2.1
          (applyMealFlags_fields intermediate.isMeal intermediate.place _).1 hpp.1
        have hFlagCov := covered_congr
          (applyMealFlags_fields intermediate.isMeal intermediate.place _).2.1
          (applyMealFlags_fields intermediate.isMeal intermediate.place _).2.2.1 hpp.2.1
        have hFlagLink := linked_congr
          (applyMealFlags_fields intermediate.isMeal intermediate.place _).2.1
          (applyMealFlags_fields intermediate.isMeal intermediate.place _).2.2.2.1 hpp.2.2
        split_ifs with htime
        · exact ⟨hFlagInv, hFlagCov, hFlagLink⟩
        · refine ih _ hFlagInv hFlagCov hFlagLink ?_
          by_cases hia : intermediate.place.id = anchor.id
          · right
            rw [(applyMealFlags_fields intermediate.isMeal intermediate.place _).2.2.2.1]
            exact hia
          · left
            rw [(applyMealFlags_fields intermediate.isMeal intermediate.place _).2.2.1]
            intro hmem
            rcases List.mem_cons.mp hmem with heq2 | hmem2
            · exact hia heq2.symm
            · exact hid hmem2
    · rw [if_neg hfar]
      split_ifs with hend
      · exact ⟨hInv, hCov, hLink⟩
      · refine ⟨buildInv_congr (updateAnchorMealFlags_fields _ _ _ _).2.1
          (updateAnchorMealFlags_fields _ _ _ _).1 ?_,
          covered_congr (updateAnchorMealFlags_fields _ _ _ _).2.1
            (updateAnchorMealFlags_fields _ _ _ _).2.2.1 ?_,
          linked_congr (updateAnchorMealFlags_fields _ _ _ _).2.1
            (updateAnchorMealFlags_fields _ _ _ _).2.2.2.1 ?_⟩
        · exact (advanceTo_post anchor _ _ _ _ hInv hCov hLink hid
            (not_lt.mp hend) (fun _ => Or.inr hanchor)).1
        · exact (advanceTo_post anchor _ _ _ _ hInv hCov hLink hid
            (not_lt.mp hend) (fun _ => Or.inr hanchor)).2.1
        · exact (advanceTo_post anchor _ _ _ _ hInv hCov hLink hid
            (not_lt.mp hend) (fun _ => Or.inr hanchor)).2.2

theorem anchorLoop_post {S : Type} [LinearOrder S] {env : GenEnv S} {exc : List Place}
    {s0 : CourseStep}
    (hexc : ∀ e, env.targetEndLocation = some e → e ∈ exc) :
    ∀ (anchors : List Place), (∀ a ∈ anchors, a ∈ exc) →
      ∀ st, BuildInv env exc s0 st → Covered st → Linked st →
        BuildInv env exc s0 (anchorLoop env anchors st) ∧
        Covered (anchorLoop env anchors st) ∧
        (Linked (anchorLoop env anchors st) ∨
          (EndVisited env (anchorLoop env anchors st) ∧
            env.maxEndTime ≤ (anchorLoop env anchors st).currentTime)) := by
  intro anchors
  induction anchors with
  | nil =>
    intro _ st hInv hCov hLink
    simp only [anchorLoop]
    exact ⟨hInv, hCov, Or.inl hLink⟩
  | cons anchor rest ih =>
    intro hmem st hInv hCov hLink
    simp only [anchorLoop]
    split_ifs with hvis htime
    · exact ih (fun a ha => hmem a (List.mem_cons_of_mem _ ha)) st hInv hCov hLink
    · have hpost := tryAppendEnd_post hInv hCov hLink hexc
      refine ⟨hpost.1, hpost.2.1, ?_⟩
      rcases hpost.2.2.1 with hL | hEV
      · exact Or.inl hL
      · exact Or.inr ⟨hEV, by rw [hpost.2.2.2]; exact le_of_not_lt (not_lt.mpr htime)⟩
    · have hw := anchorWhile_post anchor (hmem anchor (List.mem_cons_self _ _))
        (env.allPlaces.length + 1) st hInv hCov hLink (Or.inl hvis)
      exact ih (fun a ha => hmem a (List.mem_cons_of_mem _ ha)) _ hw.1 hw.2.1 hw.2.2

theorem fillLoop_post {S : Type} [LinearOrder S] {env : GenEnv S} {exc : List Place}
    {s0 : CourseStep}
    (hexc : ∀ e, env.targetEndLocation = some e → e ∈ exc) :
    ∀ (fuel : Nat) (st : BuildState),
      BuildInv env exc s0 st → Covered st →
      (Linked st ∨ (EndVisited env st ∧ env.maxEndTime ≤ st.currentTime)) →
      BuildInv env exc s0 (fillLoop env fuel st) ∧ Covered (fillLoop env fuel st) ∧
        (Linked (fillLoop env fuel st) ∨ EndVisited env (fillLoop env fuel st)) := by
  intro fuel
  induction fuel with
  | zero =>
    intro st hInv hCov hL
    simp only [fillLoop]
    exact ⟨hInv, hCov, hL.imp id And.left⟩
  | succ n ih =>
    intro st hInv hCov hL
    simp only [fillLoop]
    split_ifs with htime hrem
    · exact ⟨hInv, hCov, hL.imp id And.left⟩
    · have hLink : Linked st := by
        rcases hL with hLk | ⟨_, hge⟩
        · exact hLk
        · exact absurd htime (not_lt.mpr hge)
      cases hfp : findPlaceForTimeEnv env st with
      | none =>
        exact ⟨hInv, hCov, Or.inl hLink⟩
      | some nextPlace =>
        dsimp only
        unfold findPlaceForTimeEnv at hfp
        have hspec := findPlaceForTime_spec env.dist env.score st.currentTime st.currentPlace
          env.allPlaces st.visited env.mealWindows env.transport env.baseDuration
          env.maxEndTime st.hasHadLunch st.hasHadDinner env.userVector st.selectedPlaces
          (some env.companion) (some env.isRainy) (some env.temp) nextPlace hfp
        split_ifs with hover
        · have hpost := tryAppendEnd_post hInv hCov hLink hexc
          exact ⟨hpost.1, hpost.2.1, hpost.2.2.1⟩
        · have hpp := advanceTo_post nextPlace.place
            nextPlace.startAt nextPlace.endAt
            (travelMinutes nextPlace.distanceKm env.transport) nextPlace.distanceKm
            hInv hCov hLink hspec.1 hspec.2.1 (fun hf => Or.inl (hspec.2.2 hf))
          have hFlagInv := buildInv_congr
            (applyMealFlags_fields nextPlace.isMeal nextPlace.place _).2.1
            (applyMealFlags_fields nextPlace.isMeal nextPlace.place _).1 hpp.1
          have hFlagCov := covered_congr
            (applyMealFlags_fields nextPlace.isMeal nextPlace.place _).2.1
            (applyMealFlags_fields nextPlace.isMeal nextPlace.place _).2.2.1 hpp.2.1
          have hFlagLink := linked_congr
            (applyMealFlags_fields nextPlace.isMeal nextPlace.place _).2.1
            (applyMealFlags_fields nextPlace.isMeal nextPlace.place _).2.2.2.1 hpp.2.2
          exact ih _ hFlagInv hFlagCov (Or.inl hFlagLink)
    · exact ⟨hInv, hCov, hL.imp id And.left⟩

theorem initialState_post {S : Type} (env : GenEnv S) (exc : List Place)
    (startLocation : Place) (startTime : ℚ) :
    BuildInv env exc ⟨startLocation, startTime, startTime, 0⟩
        (initialState startLocation startTime) ∧
      Covered (initialState startLocation startTime) ∧
      Linked (initialState startLocation startTime) := by
  refine ⟨⟨rfl, rfl, List.nodup_singleton _, ?_, fun _ => List.chain'_singleton _⟩, ?_, rfl⟩
  · intro s hs
    simp [initialState] at hs
  · intro i hi
    simp only [stepIds, initialState, List.map_singleton, List.mem_singleton] at hi
    subst hi
    exact List.mem_singleton.mpr rfl

theorem generateCourse_inv {S : Type} [LinearOrder S] (dist : Place → Place → ℚ)
    (score : Place → ScoreContext → S) (allPlaces : List Place)
    (options : CourseGenerationOptions) (startLocation : Place) (c : GeneratedCourse)
    (hstart : options.startLocation = some startLocation)
    (h : generateCourse dist score allPlaces options = some c) :
    c.steps.head? = some ⟨startLocation, options.startTime, options.startTime, 0⟩ ∧
    c.sequence.map (fun p => p.id) = c.steps.map (fun s => s.place.id) ∧
    (c.steps.map (fun s => s.place.id)).Nodup ∧
    (∀ s ∈ c.steps.drop 1, s.endTime ≤ effectiveMaxEndTime options) ∧
    (options.transport.getD .foot = .foot →
      List.Chain' (fun a b => dist a.place b.place ≤ 3/2 ∨
        b.place ∈ options.mustVisitPlaces.getD [] ++ options.endLocation.toList) c.steps) := by
  simp only [generateCourse, hstart] at h
  set env := mkGenEnv (S := S) dist score allPlaces options with henv
  set exc := options.mustVisitPlaces.getD [] ++ options.endLocation.toList with hexcdef
  have hexc : ∀ e, env.targetEndLocation = some e → e ∈ exc := by
    intro e he
    simp only [henv, mkGenEnv] at he
    rw [hexcdef]
    refine List.mem_append.mpr (Or.inr ?_)
    rw [he]
    exact List.mem_singleton.mpr rfl
  have hanchors : ∀ a ∈ anchorsOf options, a ∈ exc := by
    intro a ha
    simp only [anchorsOf] at ha
    rcases List.mem_append.mp ha with hmem | hmem
    · exact List.mem_append.mpr (Or.inl hmem)
    · refine List.mem_append.mpr (Or.inr ?_)
      revert hmem
      cases heq : options.endLocation with
      | none => intro hmem; simp at hmem
      | some e =>
        intro hmem
        dsimp only at hmem
        split_ifs at hmem
        · simp at hmem
        · rw [List.mem_singleton] at hmem
          subst hmem
          exact List.mem_singleton.mpr rfl
  have h0 := initialState_post env exc startLocation options.startTime
  have h1 := anchorLoop_post hexc (anchorsOf options) hanchors _ h0.1 h0.2.1 h0.2.2
  have h2 := fillLoop_post hexc (allPlaces.length + 1) _ h1.1 h1.2.1 h1.2.2
  have h3 := finalAppendEnd_inv h2.1 h2.2.1 h2.2.2 hexc
  obtain ⟨hhead, hmap, hnodup, hends, hchain⟩ := h3
  have hc := Option.some.inj h
  subst hc
  refine ⟨hhead, ?_, hnodup, ?_, ?_⟩
  · exact hmap
  · intro s hs
    exact hends s hs
  · intro hfoot
    have := hchain (by simp only [henv, mkGenEnv]; exact hfoot)
    exact this

/-!
Concrete evaluation: Batteries marks the `Rat` field operations
`@[irreducible]`, which blocks the elaborator from reducing concrete runs of
the (fully computable) builder.  Restore the default reducibility for them
so that `decide` can evaluate the concrete witnesses below.
-/

attribute [local semireducible] Rat.mul Rat.add Rat.sub Rat.inv

/-! ### Claim C2 — steps end by the effective maximum end time (corrected) -/

/-- C2 counterexample: with an explicit end time (500) earlier than the
start time (600), the initial step — whose end time equals the start time —
exceeds the effective maximum end time, so the claim fails as stated for
the start step. -/
theorem C2_counterexample :
    generateCourse wDist wScore [wPlaceA] wOptsEndEarly = some wCourseEndEarly ∧
    ∃ s ∈ wCourseEndEarly.steps, effectiveMaxEndTime wOptsEndEarly < s.endTime := by
  constructor
  · decide
  · decide

/-- C2 (amended): every step after the initial start step ends no later
than the effective maximum end time; and whenever that time is not earlier
than the start time (every non-degenerate options record), every step —
the start step included — ends no later than it. -/
theorem C2_end_time_bound {S : Type} [LinearOrder S] (dist : Place → Place → ℚ)
    (score : Place → ScoreContext → S) (allPlaces : List Place)
    (options : CourseGenerationOptions) (c : GeneratedCourse)
    (h : generateCourse dist score allPlaces options = some c) :
    (∀ s ∈ c.steps.drop 1, s.endTime ≤ effectiveMaxEndTime options) ∧
    (options.startTime ≤ effectiveMaxEndTime options →
      ∀ s ∈ c.steps, s.endTime ≤ effectiveMaxEndTime options) := by
  cases hstart : options.startLocation with
  | none => simp [generateCourse, hstart] at h
  | some startLocation =>
    have hi := generateCourse_inv dist score allPlaces options startLocation c hstart h
    refine ⟨hi.2.2.2.1, fun hst s hs => ?_⟩
    cases hcs : c.steps with
    | nil =>
      rw [hcs] at hs
      simp at hs
    | cons a t =>
      have hhead := hi.1
      rw [hcs] at hhead hs
      simp only [List.head?_cons, Option.some_inj] at hhead
      rcases List.mem_cons.mp hs with rfl | hmem
      · rw [hhead]
        exact hst
      · exact hi.2.2.2.1 s (by rw [hcs]; simpa using hmem)

/-- Witness for C2 at a concrete generation call. -/
theorem C2_witness :
    generateCourse wDist wScore [wPlaceA, wPlaceB, wPlaceC] wOpts = some wCourse ∧
    wOpts.startTime ≤ effectiveMaxEndTime wOpts ∧
    (∀ s ∈ wCourse.steps, s.endTime ≤ effectiveMaxEndTime wOpts) := by
  have h : generateCourse wDist wScore [wPlaceA, wPlaceB, wPlaceC] wOpts = some wCourse := by
    decide
  exact ⟨h, by decide, (C2_end_time_bound wDist wScore _ wOpts wCourse h).2 (by decide)⟩

/-! ### Claim C3 — no venue id repeats -/

/-- C3: the itinerary returned by `generateCourse` never repeats a venue id,
neither in its steps nor in its sequence. -/
theorem C3_distinct_ids {S : Type} [LinearOrder S] (dist : Place → Place → ℚ)
    (score : Place → ScoreContext → S) (allPlaces : List Place)
    (options : CourseGenerationOptions) (c : GeneratedCourse)
    (h : generateCourse dist score allPlaces options = some c) :
    (c.sequence.map (fun p => p.id)).Nodup ∧ (c.steps.map (fun s => s.place.id)).Nodup := by
  cases hstart : options.startLocation with
  | none => simp [generateCourse, hstart] at h
  | some startLocation =>
    have hi := generateCourse_inv dist score allPlaces options startLocation c hstart h
    refine ⟨?_, hi.2.2.1⟩
    rw [hi.2.1]
    exact hi.2.2.1

/-- Witness for C3 at a concrete generation call. -/
theorem C3_witness :
    generateCourse wDist wScore [wPlaceA, wPlaceB, wPlaceC] wOpts = some wCourse ∧
    (wCourse.sequence.map (fun p => p.id)).Nodup ∧
    (wCourse.steps.map (fun s => s.place.id)).Nodup := by
  have h : generateCourse wDist wScore [wPlaceA, wPlaceB, wPlaceC] wOpts = some wCourse := by
    decide
  exact ⟨h, C3_distinct_ids wDist wScore _ wOpts wCourse h⟩

/-! ### Claim C4 — the 1.5 km foot limit between consecutive steps -/

/-- C4: on foot transport, consecutive steps of a generated itinerary are at
most 1.5 km apart, except when the later step is a must-visit anchor or the
end venue. -/
theorem C4_foot_hop_limit {S : Type} [LinearOrder S] (dist : Place → Place → ℚ)
    (score : Place → ScoreContext → S) (allPlaces : List Place)
    (options : CourseGenerationOptions) (c : GeneratedCourse)
    (hfoot : options.transport.getD .foot = .foot)
    (h : generateCourse dist score allPlaces options = some c) :
    List.Chain' (fun a b => dist a.place b.place ≤ 3/2 ∨
      b.place ∈ options.mustVisitPlaces.getD [] ++ options.endLocation.toList) c.steps := by
  cases hstart : options.startLocation with
  | none => simp [generateCourse, hstart] at h
  | some startLocation =>
    exact (generateCourse_inv dist score allPlaces options startLocation c hstart h).2.2.2.2
      hfoot

/-- Witness for C4 at a concrete generation call on foot. -/
theorem C4_witness :
    generateCourse wDist wScore [wPlaceA, wPlaceB, wPlaceC] wOpts = some wCourse ∧
    wOpts.transport.getD .foot = .foot ∧
    List.Chain' (fun a b => wDist a.place b.place ≤ 3/2 ∨
      b.place ∈ wOpts.mustVisitPlaces.getD [] ++ wOpts.endLocation.toList) wCourse.steps := by
  have h : generateCourse wDist wScore [wPlaceA, wPlaceB, wPlaceC] wOpts = some wCourse := by
    decide
  exact ⟨h, rfl, C4_foot_hop_limit wDist wScore _ wOpts wCourse rfl h⟩

/-! ### Claim C5 — the locked-step override (corrected) -/

/-- C5 counterexample: a generation call whose `lockedSteps` maps sequence
index 1 to venue B — unvisited, and placeable there, as the second run over
the pool [A, B] shows — still places the better-scoring venue C at index 1:
`generateCourse` ignores `lockedSteps` entirely. -/
theorem C5_counterexample :
    generateCourse wDist wScore [wPlaceA, wPlaceB, wPlaceC] wOptsLockedB = some wCourse ∧
    (∃ f, wOptsLockedB.lockedSteps = some f ∧ f 1 = some wPlaceB) ∧
    wCourse.sequence.map (fun p => p.id) = ["A", "C"] ∧
    wPlaceB.id = "B" ∧
    (generateCourse wDist wScore [wPlaceA, wPlaceB] wOptsLockedB).map
      (fun c => c.sequence.map (fun p => p.id)) = some ["A", "B"] := by
  refine ⟨by decide, ⟨fun n => if n = 1 then some wPlaceB else none, rfl, by decide⟩,
    by decide, rfl, by decide⟩

/-- C5 (amended): the locked-step override lives in `pickCandidate`, which
does return the locked venue — without the scored search — whenever
`lockedSteps[stepIndex + 1]` names an unvisited venue valid for the step
whose window accepts its arrival time; but `generateCourse` never calls
`pickCandidate`, and its result does not depend on `lockedSteps` at all. -/
theorem C5_locked_step {S : Type} [LinearOrder S] (dist : Place → Place → ℚ)
    (score : Place → ScoreContext → S) (allPlaces : List Place) (stepIndex : Nat)
    (step : StepDefinition) (context : PickCandidateContext) (f : Nat → Option Place)
    (locked : Place) (startAt : ℚ)
    (hf : context.lockedSteps = some f) (hlock : f (stepIndex + 1) = some locked)
    (hunvisited : locked.id ∉ context.visited)
    (hvalid : isValidForStep locked step = true)
    (hwindow : validateWindow step (context.currentTime +
      travelMinutes (dist context.currentPlace locked) (context.transport.getD .foot)) =
        some startAt) :
    pickCandidate dist score allPlaces stepIndex step context =
      some ⟨locked, dist context.currentPlace locked, startAt,
        startAt + jsOr locked.estimatedDuration 60⟩ ∧
    ∀ (options : CourseGenerationOptions) (l1 l2 : Option (Nat → Option Place)),
      generateCourse dist score allPlaces { options with lockedSteps := l1 } =
        generateCourse dist score allPlaces { options with lockedSteps := l2 } := by
  constructor
  · simp only [pickCandidate, hf, Option.some_bind, hlock]
    rw [if_pos ⟨hunvisited, hvalid⟩, hwindow]
  · intro options l1 l2
    rfl

/-- Witness for C5 at a concrete locked context: `pickCandidate` places the
locked venue B. -/
theorem C5_witness :
    pickCandidate wDist wScore [wPlaceA, wPlaceB, wPlaceC] 0 wStepWarmup wPickCtx =
      some ⟨wPlaceB, wDist wPickCtx.currentPlace wPlaceB, 3018/5,
        3018/5 + jsOr wPlaceB.estimatedDuration 60⟩ :=
  (C5_locked_step wDist wScore [wPlaceA, wPlaceB, wPlaceC] 0 wStepWarmup wPickCtx
    (fun n => if n = 1 then some wPlaceB else none) wPlaceB (3018/5) rfl (by decide)
    (by decide) (by decide) (by decide)).1
